import Mathlib

/-!
Verification of the shipping-label-formatter image-normalization core.

The definitions below are a shallow embedding of the Node/TypeScript core
(`shipping_label_node` core, served as `label_resize_print/static/sw.js`):
`autoCropLabel`, `resizeImage`, `buildPdf2Up`, `loadImage`, `resizeLabel` /
`resizeLabelFromBuffers`, together with the constants they use.  Images are
modelled at the decoded-pixel level: a grayscale buffer is a width, a height
and a luminance function (the single-channel raw data that `sharp(...)
.grayscale().raw()` hands to the crop detector).
-/

namespace LabelCore

/-- A decoded single-channel (grayscale) pixel buffer: `pix x y` is the
luminance byte at column `x`, row `y` (row-major `gray[y*width + x]` in the
source).  Only coordinates `x < width`, `y < height` are ever read. -/
structure GrayImage where
  width : Nat
  height : Nat
  pix : Nat → Nat → Nat

/-- An axis-aligned crop rectangle, in the half-open pixel coordinates the
source uses (`left ≤ x < right`, `top ≤ y < bottom`). -/
structure Rect where
  left : Nat
  top : Nat
  right : Nat
  bottom : Nat
deriving DecidableEq, Repr

/-- State of the dark-pixel bounding-box scan of `autoCropLabel`
(variables `found, bx0, by0, bx1, by1` in the source). -/
structure BBox where
  found : Bool
  bx0 : Nat
  by0 : Nat
  bx1 : Nat
  by1 : Nat
deriving DecidableEq, Repr

/-- One step of the bounding-box scan: the body of the double loop
`if (gray[rowOff + x] < borderThreshold) { ... }` — a dark pixel extends the
box (`if (x < bx0) bx0 = x` is `min`, `if (x + 1 > bx1) bx1 = x + 1` is
`max`, and so on) and sets `found`. -/
def bboxUpd (img : GrayImage) (T : Nat) (s : BBox) (x y : Nat) : BBox :=
  if img.pix x y < T then
    { found := true
      bx0 := min s.bx0 x
      by0 := min s.by0 y
      bx1 := max s.bx1 (x + 1)
      by1 := max s.by1 (y + 1) }
  else s

/-- The full bounding-box pass of `autoCropLabel`: `for (y...) for (x...)`
over every pixel, starting from
`bx0 = width; by0 = height; bx1 = 0; by1 = 0; found = false`. -/
def bboxScan (img : GrayImage) (T : Nat) : BBox :=
  (List.range img.height).foldl
    (fun s y => (List.range img.width).foldl (fun s x => bboxUpd img T s x y) s)
    { found := false, bx0 := img.width, by0 := img.height, bx1 := 0, by1 := 0 }

/-- Number of dark pixels of row `y` with `x0 ≤ x < x1` (the counting loop
of `rowIsBorder` in the source). -/
def rowDarkCount (img : GrayImage) (T y x0 x1 : Nat) : Nat :=
  (List.range' x0 (x1 - x0)).countP (fun x => decide (img.pix x y < T))

/-- `rowIsBorder(ry, x0, x1)`: the row is a border line iff strictly more
than half of its pixels in `[x0, x1)` are dark (`dark > len * 0.5`, i.e.
`len < 2 * dark`). -/
def rowIsBorder (img : GrayImage) (T y x0 x1 : Nat) : Bool :=
  decide ((x1 - x0) < 2 * rowDarkCount img T y x0 x1)

/-- Number of dark pixels of column `x` with `y0 ≤ y < y1` (the counting
loop of `colIsBorder` in the source). -/
def colDarkCount (img : GrayImage) (T x y0 y1 : Nat) : Nat :=
  (List.range' y0 (y1 - y0)).countP (fun y => decide (img.pix x y < T))

/-- `colIsBorder(cx, y0, y1)`: strictly more than half of the pixels in
`[y0, y1)` of the column are dark. -/
def colIsBorder (img : GrayImage) (T x y0 y1 : Nat) : Bool :=
  decide ((y1 - y0) < 2 * colDarkCount img T x y0 y1)

/-- Embedding of an increasing break-on-first-hit scan:
`for (i = start; i < start + fuel; i++) { if (!p(i)) { res = i; break } }`
with `res` initialised to `dflt`. -/
def scanDown (p : Nat → Bool) (start fuel dflt : Nat) : Nat :=
  match fuel with
  | 0 => dflt
  | f + 1 => if p start = false then start else scanDown p (start + 1) f dflt

/-- Embedding of a decreasing break-on-first-hit scan returning the edge
just below the hit:
`for (i = start; i > start - fuel; i--) { if (!p(i)) { res = i + 1; break } }`
with `res` initialised to `dflt` (`fuel` is the number of iterations). -/
def scanUp (p : Nat → Bool) (start fuel dflt : Nat) : Nat :=
  match fuel with
  | 0 => dflt
  | f + 1 => if p start = false then start + 1 else scanUp p (start - 1) f dflt

/-- The top-edge scan of `autoCropLabel`:
`scanH = min(floor(boxH/2), 100); for (y = by0; y < by0 + scanH; y++)
{ if (!rowIsBorder(y, bx0, bx1)) { top = y; break } }`, `top` initialised to
`by0`. -/
def innerTop (img : GrayImage) (T : Nat) : Nat :=
  let s := bboxScan img T
  scanDown (fun y => rowIsBorder img T y s.bx0 s.bx1) s.by0
    (min ((s.by1 - s.by0) / 2) 100) s.by0

/-- The bottom-edge scan of `autoCropLabel`:
`for (y = by1 - 1; y > by1 - scanH; y--) { if (!rowIsBorder(...)) { bottom =
y + 1; break } }`, `bottom` initialised to `by1`.  The loop runs for
`scanH - 1` iterations (`y` stops strictly above `by1 - scanH`). -/
def innerBottom (img : GrayImage) (T : Nat) : Nat :=
  let s := bboxScan img T
  scanUp (fun y => rowIsBorder img T y s.bx0 s.bx1) (s.by1 - 1)
    (min ((s.by1 - s.by0) / 2) 100 - 1) s.by1

/-- The left-edge scan of `autoCropLabel` (columns, `scanW = min(floor(boxW/2), 100)`). -/
def innerLeft (img : GrayImage) (T : Nat) : Nat :=
  let s := bboxScan img T
  scanDown (fun x => colIsBorder img T x s.by0 s.by1) s.bx0
    (min ((s.bx1 - s.bx0) / 2) 100) s.bx0

/-- The right-edge scan of `autoCropLabel`:
`for (x = bx1 - 1; x > bx1 - scanW; x--) { ... right = x + 1 ... }`,
`right` initialised to `bx1` (again `scanW - 1` iterations). -/
def innerRight (img : GrayImage) (T : Nat) : Nat :=
  let s := bboxScan img T
  scanUp (fun x => colIsBorder img T x s.by0 s.by1) (s.bx1 - 1)
    (min ((s.bx1 - s.bx0) / 2) 100 - 1) s.bx1

/-- The crop decision of `autoCropLabel(imageBuffer, borderThreshold = 80,
minAreaRatio = 0.05)`: `none` models the `return imageBuffer` early exits
(`NoCropNeeded`), `some r` the final `extract` rectangle.  The area test is
the source's `boxW * boxH < width * height * minAreaRatio` at the default
`minAreaRatio = 0.05 = 1/20`, written cross-multiplied over `Nat`
(`20 * boxArea < width * height`), which is exactly equivalent; the final
rectangle expands the inner edges by `pad = 8`, clamped
(`Math.max(left - pad, 0)` is `Nat` truncated subtraction,
`Math.min(right + pad, width)` is `min`). -/
def detectCrop (img : GrayImage) (T : Nat) : Option Rect :=
  let s := bboxScan img T
  if s.found = false then none
  else if (s.bx1 - s.bx0) * (s.by1 - s.by0) * 20 < img.width * img.height then none
  else
    some { left := innerLeft img T - 8
           top := innerTop img T - 8
           right := min (innerRight img T + 8) img.width
           bottom := min (innerBottom img T + 8) img.height }

/-- `sharp(imageBuffer).extract({left, top, width: right-left, height:
bottom-top})` at the pixel level. -/
def cropImage (img : GrayImage) (r : Rect) : GrayImage :=
  { width := r.right - r.left
    height := r.bottom - r.top
    pix := fun x y => img.pix (x + r.left) (y + r.top) }

/-- The complete `autoCropLabel`: the original buffer on the `NoCropNeeded`
paths, the extracted crop otherwise. -/
def autoCropLabel (img : GrayImage) (T : Nat) : GrayImage :=
  match detectCrop img T with
  | none => img
  | some r => cropImage img r

/-- The claim's description of the top-edge scan, with an explicit step
count: scanning `steps` rows downward from the top box row `by0`, the
inner top edge is the first row that is not a border line, and stays at
`by0` when every scanned row is a border line. -/
def topEdgeSpec (img : GrayImage) (T steps : Nat) : Prop :=
  let s := bboxScan img T
  (∃ i, i < steps ∧ rowIsBorder img T (s.by0 + i) s.bx0 s.bx1 = false ∧
      (∀ j, j < i → rowIsBorder img T (s.by0 + j) s.bx0 s.bx1 = true) ∧
      innerTop img T = s.by0 + i) ∨
  ((∀ i, i < steps → rowIsBorder img T (s.by0 + i) s.bx0 s.bx1 = true) ∧
      innerTop img T = s.by0)

/-- The claim's description of the bottom-edge scan with an explicit step
count: scanning `steps` rows upward from the bottommost box row `by1 - 1`,
the inner bottom edge sits just below the first row that is not a border
line, and stays at `by1` when every scanned row is a border line. -/
def bottomEdgeSpec (img : GrayImage) (T steps : Nat) : Prop :=
  let s := bboxScan img T
  (∃ i, i < steps ∧ rowIsBorder img T (s.by1 - 1 - i) s.bx0 s.bx1 = false ∧
      (∀ j, j < i → rowIsBorder img T (s.by1 - 1 - j) s.bx0 s.bx1 = true) ∧
      innerBottom img T = (s.by1 - 1 - i) + 1) ∨
  ((∀ i, i < steps → rowIsBorder img T (s.by1 - 1 - i) s.bx0 s.bx1 = true) ∧
      innerBottom img T = s.by1)

/-- The claim's description of the left-edge scan (columns). -/
def leftEdgeSpec (img : GrayImage) (T steps : Nat) : Prop :=
  let s := bboxScan img T
  (∃ i, i < steps ∧ colIsBorder img T (s.bx0 + i) s.by0 s.by1 = false ∧
      (∀ j, j < i → colIsBorder img T (s.bx0 + j) s.by0 s.by1 = true) ∧
      innerLeft img T = s.bx0 + i) ∨
  ((∀ i, i < steps → colIsBorder img T (s.bx0 + i) s.by0 s.by1 = true) ∧
      innerLeft img T = s.bx0)

/-- The claim's description of the right-edge scan (columns). -/
def rightEdgeSpec (img : GrayImage) (T steps : Nat) : Prop :=
  let s := bboxScan img T
  (∃ i, i < steps ∧ colIsBorder img T (s.bx1 - 1 - i) s.by0 s.by1 = false ∧
      (∀ j, j < i → colIsBorder img T (s.bx1 - 1 - j) s.by0 s.by1 = true) ∧
      innerRight img T = (s.bx1 - 1 - i) + 1) ∨
  ((∀ i, i < steps → colIsBorder img T (s.bx1 - 1 - i) s.by0 s.by1 = true) ∧
      innerRight img T = s.bx1)

/-! ### Resize (`resizeImage`) -/

/-- `export type FitMode = "fit" | "fill" | "stretch"`. -/
inductive FitMode where
  | fit
  | fill
  | stretch
deriving DecidableEq, Repr

/-- Sample the source image at a rational coordinate; coordinates outside
the source content yield the white background (255) that every fit mode
flattens onto.  (Model of the resampling performed by `sharp.resize`; the
interpolation kernel is abstracted as nearest-neighbour.) -/
def sampleAt (img : GrayImage) (q r : ℚ) : Nat :=
  if 0 ≤ q ∧ q < (img.width : ℚ) ∧ 0 ≤ r ∧ r < (img.height : ℚ) then
    img.pix ⌊q⌋.toNat ⌊r⌋.toNat
  else 255

/-- Model of `sharp(...).resize(w, h, {fit: ...}).flatten({background:
white})`: the output buffer has exactly the requested `w × h` pixels; the
geometry per mode is sharp's documented behaviour, as also spelled out in
the Swift port (`resizeToLabel`): `stretch` scales each axis independently,
`fill` scales uniformly by the larger ratio and centre-crops, `fit` scales
uniformly by the smaller ratio, centred on a white background. -/
def sharpResize (img : GrayImage) (w h : Nat) (mode : FitMode) : GrayImage :=
  let srcW : ℚ := img.width
  let srcH : ℚ := img.height
  let geom : ℚ × ℚ × ℚ × ℚ :=
    match mode with
    | .stretch => ((w : ℚ) / srcW, (h : ℚ) / srcH, 0, 0)
    | .fill =>
        let s := max ((w : ℚ) / srcW) ((h : ℚ) / srcH)
        (s, s, ((w : ℚ) - s * srcW) / 2, ((h : ℚ) - s * srcH) / 2)
    | .fit =>
        let s := min ((w : ℚ) / srcW) ((h : ℚ) / srcH)
        (s, s, ((w : ℚ) - s * srcW) / 2, ((h : ℚ) - s * srcH) / 2)
  { width := w
    height := h
    pix := fun x y =>
      sampleAt img (((x : ℚ) - geom.2.2.1) / geom.1) (((y : ℚ) - geom.2.2.2) / geom.2.1) }

/-- `resizeImage(imageBuffer, labelSize, dpi, fitMode)`: the target pixel
dimensions are `Math.round(labelSize[0] * dpi)` and
`Math.round(labelSize[1] * dpi)` (`round` is round-half-up, exactly JS
`Math.round` on these values), and the buffer is handed to `sharp.resize`.
`sharp.resize` rejects non-positive dimensions (it throws `Expected
positive integer for width/height`), which the source does not guard
against; that failure path is modelled as `none`. -/
def resizeImage (img : GrayImage) (labelSize : ℚ × ℚ) (dpi : ℚ)
    (fitMode : FitMode) : Option GrayImage :=
  let targetW : ℤ := round (labelSize.1 * dpi)
  let targetH : ℤ := round (labelSize.2 * dpi)
  if targetW ≤ 0 ∨ targetH ≤ 0 then none
  else some (sharpResize img targetW.toNat targetH.toNat fitMode)

/-! ### Image loading (`loadImage`) -/

/-- `SUPPORTED_IMAGE_EXTS`, in the source's insertion order (a JS `Set`
iterates in insertion order). -/
def SUPPORTED_IMAGE_EXTS : List String :=
  [".png", ".jpg", ".jpeg", ".bmp", ".tiff", ".tif", ".webp"]

/-- `SUPPORTED_PDF_EXTS`. -/
def SUPPORTED_PDF_EXTS : List String := [".pdf"]

/-- `SUPPORTED_EXTS = new Set([...SUPPORTED_IMAGE_EXTS, ...SUPPORTED_PDF_EXTS])`. -/
def SUPPORTED_EXTS : List String := SUPPORTED_IMAGE_EXTS ++ SUPPORTED_PDF_EXTS

/-- Lexicographic order on character lists by code point — the comparison
JS `Array.prototype.sort()` applies to strings (UTF-16 code-unit order,
which coincides with code-point order on these ASCII extensions). -/
def strLtList : List Char → List Char → Bool
  | [], [] => false
  | [], _ :: _ => true
  | _ :: _, [] => false
  | a :: as, b :: bs =>
      if a.toNat < b.toNat then true
      else if b.toNat < a.toNat then false
      else strLtList as bs

/-- `a < b` in JS string order. -/
def strLtB (a b : String) : Bool := strLtList a.data b.data

/-- Insert a string into an already-sorted list (ascending string order). -/
def insortStr (x : String) : List String → List String
  | [] => [x]
  | y :: ys => if strLtB y x then y :: insortStr x ys else x :: y :: ys

/-- Sorting a list of strings in ascending order: the model of JS
`Array.prototype.sort()` on strings, which compares UTF-16 code-unit
sequences — the same order as Lean's `String` order on these ASCII
extensions. -/
def sortStrings (l : List String) : List String := l.foldr insortStr []

/-- `[...SUPPORTED_EXTS].sort().join(", ")`. -/
def supportedListText : String :=
  String.intercalate ", " (sortStrings SUPPORTED_EXTS)

/-- The message of the error thrown by `loadImage` for an unsupported
extension. -/
def unsupportedMsg (ext : String) : String :=
  "Unsupported file format \x27" ++ ext ++ "\x27. Supported: " ++ supportedListText

/-- What `loadImage` goes on to do with a supported input. -/
inductive LoadKind where
  | image
  | pdf
deriving DecidableEq, Repr

/-- The extension dispatch of `loadImage(inputPath)` (the caller-side
`path.extname(inputPath).toLowerCase()` is the `ext` argument): decode
bitmaps, rasterise PDFs, otherwise throw the unsupported-format error. -/
def loadImage (ext : String) : Except String LoadKind :=
  if ext ∈ SUPPORTED_IMAGE_EXTS then .ok .image
  else if ext ∈ SUPPORTED_PDF_EXTS then .ok .pdf
  else .error (unsupportedMsg ext)

/-! ### Label-size catalog -/

/-- What bracket property access on the `LABEL_SIZES` object literal can
yield: one of its own entries (always a `[w, h]` array here), an inherited
`Object.prototype` member (a function — or the prototype object itself for
`__proto__` — in either case not nullish), or `undefined`. -/
inductive SizeLookup where
  | arr (v : ℚ × ℚ)
  | protoMember
  | undefined
deriving DecidableEq, Repr

/-- The property names every plain object literal inherits from
`Object.prototype`: for these keys `LABEL_SIZES[k]` is an inherited,
non-nullish member, so a `??` fallback does not trigger on them. -/
def OBJECT_PROTO_KEYS : List String :=
  ["constructor", "hasOwnProperty", "isPrototypeOf", "propertyIsEnumerable",
   "toLocaleString", "toString", "valueOf", "__defineGetter__",
   "__defineSetter__", "__lookupGetter__", "__lookupSetter__", "__proto__"]

/-- Property access `LABEL_SIZES[k]` on the record literal
`{"4x6": [4, 6], "4x8": [4, 8], "2x7": [2, 7], letter: [8.5, 11]}`: an own
entry for the four catalog keys, an inherited `Object.prototype` member
for that prototype's property names, and `undefined` for every other
key. -/
def labelSizeEntry (k : String) : SizeLookup :=
  if k = "4x6" then .arr (4, 6)
  else if k = "4x8" then .arr (4, 8)
  else if k = "2x7" then .arr (2, 7)
  else if k = "letter" then .arr (17 / 2, 11)
  else if k ∈ OBJECT_PROTO_KEYS then .protoMember
  else .undefined

/-- `DEFAULT_LABEL_SIZE = "4x6"`. -/
def DEFAULT_LABEL_SIZE : String := "4x6"

/-- The size-selection expression shared by both entry points
(`resizeLabel` and `resizeLabelFromBuffers`):
`LABEL_SIZES[labelSizeKey] ?? LABEL_SIZES[DEFAULT_LABEL_SIZE]` — the
nullish-coalescing `??` falls back (to `LABEL_SIZES["4x6"] = [4, 6]`) only
when the left side is `undefined`, not on an inherited prototype
member. -/
def selectedLabelSize (k : String) : SizeLookup :=
  match labelSizeEntry k with
  | .undefined => labelSizeEntry DEFAULT_LABEL_SIZE
  | v => v


/-! ### 2-up PDF composition (`buildPdf2Up`) -/

/-- Landscape US letter page width, inches. -/
def PAGE_WIDTH_IN : ℚ := 11

/-- Landscape US letter page height, inches. -/
def PAGE_HEIGHT_IN : ℚ := 85 / 10

/-- `PTS_PER_INCH = 72`. -/
def PTS_PER_INCH : ℚ := 72

/-- One `page.drawImage(img, {x, y, width, height})` call. -/
structure Placement where
  img : GrayImage
  x : ℚ
  y : ℚ
  w : ℚ
  h : ℚ

/-- The single-page document `buildPdf2Up` produces: fixed page size and
the images drawn onto the page. -/
structure PdfDoc where
  pageW : ℚ
  pageH : ℚ
  placements : List Placement

/-- `buildPdf2Up(images, labelSize)`: one landscape-letter page, the first
`min(images.length, 2)` images drawn at
`x = (halfW - labelW) / 2` (index 0) or `halfW + (halfW - labelW) / 2`
(index 1), `y = (pageH - labelH) / 2`. -/
def buildPdf2Up (images : List GrayImage) (labelSize : ℚ × ℚ) : PdfDoc :=
  let pageW : ℚ := PAGE_WIDTH_IN * PTS_PER_INCH
  let pageH : ℚ := PAGE_HEIGHT_IN * PTS_PER_INCH
  let labelW := labelSize.1 * PTS_PER_INCH
  let labelH := labelSize.2 * PTS_PER_INCH
  let halfW := pageW / 2
  { pageW := pageW
    pageH := pageH
    placements := (images.take 2).enum.map (fun p =>
      { img := p.2
        x := if p.1 = 0 then (halfW - labelW) / 2 else halfW + (halfW - labelW) / 2
        y := (pageH - labelH) / 2
        w := labelW
        h := labelH }) }

/-- The `resizeLabelFromBuffers` entry point at the decoded-pixel level
(the `resizeLabel` file-path entry point is the same pipeline after file
loading): select the label size with the `??` fallback, run each decoded
buffer through the optional auto-crop and the resize, and compose the 2-up
page.  A resize failure propagates (`none`).  When the selected value is
not one of the `[w, h]` arrays — an inherited `Object.prototype` member
reached through keys like `"toString"` — `size[0]` is `undefined`,
`Math.round(undefined * dpi)` is `NaN`, and the resize engine rejects the
dimensions: the entry point throws, modelled as `none`. -/
def resizeLabelFromBuffers (label1 : GrayImage) (label2 : Option GrayImage)
    (dpi : ℚ) (fitMode : FitMode) (autoCrop : Bool) (labelSizeKey : String) :
    Option PdfDoc :=
  match selectedLabelSize labelSizeKey with
  | .arr size =>
      let prepare := fun (img : GrayImage) =>
        resizeImage (if autoCrop then autoCropLabel img 80 else img) size dpi fitMode
      match prepare label1 with
      | none => none
      | some l1 =>
          match label2 with
          | none => some (buildPdf2Up [l1] size)
          | some b2 =>
              match prepare b2 with
              | none => none
              | some l2 => some (buildPdf2Up [l1, l2] size)
  | _ => none

/-! ### Concrete test images -/

/-- A 4×4 image whose outermost ring of pixels is dark (luminance 0) and
whose 2×2 interior is white: a miniature label with a solid black border. -/
def ex4 : GrayImage :=
  { width := 4
    height := 4
    pix := fun x y => if x = 0 ∨ x = 3 ∨ y = 0 ∨ y = 3 then 0 else 255 }

/-! ### Generic fold lemmas -/

/-- A property preserved by every step of a left fold holds of its result. -/
theorem foldl_preserve {α β : Type _} (P : α → Prop) (f : α → β → α) :
    ∀ (l : List β) (s : α), P s → (∀ s b, b ∈ l → P s → P (f s b)) → P (l.foldl f s) := by
  intro l
  induction l with
  | nil => intro s hs _; exact hs
  | cons a t ih =>
      intro s hs hstep
      exact ih (f s a) (hstep s a (List.mem_cons_self a t) hs)
        (fun s b hb => hstep s b (List.mem_cons_of_mem a hb))

/-- A property established by one element of the fold and preserved by all
later steps holds of the result. -/
theorem foldl_reach {α β : Type _} (Q : α → Prop) (f : α → β → α) (b : β) :
    ∀ (l : List β) (s : α), b ∈ l → (∀ s, Q (f s b)) →
      (∀ s c, Q s → Q (f s c)) → Q (l.foldl f s) := by
  intro l
  induction l with
  | nil => intro s hb; exact absurd hb (List.not_mem_nil b)
  | cons a t ih =>
      intro s hb hset hmono
      rcases List.mem_cons.mp hb with h | h
      · subst h
        exact foldl_preserve Q f t (f s b) (hset s) (fun s c _ => hmono s c)
      · exact ih (f s a) h hset hmono

/-! ### Characterization of the break-on-first-hit scans -/

/-- `scanDown` returns the first index in `[start, start + fuel)` where `p`
fails, and the default when `p` holds on the whole range. -/
theorem scanDown_spec (p : Nat → Bool) (dflt : Nat) :
    ∀ (fuel start : Nat),
      (∃ i, i < fuel ∧ p (start + i) = false ∧
        (∀ j, j < i → p (start + j) = true) ∧
        scanDown p start fuel dflt = start + i) ∨
      ((∀ i, i < fuel → p (start + i) = true) ∧ scanDown p start fuel dflt = dflt) := by
  intro fuel
  induction fuel with
  | zero => exact fun start => Or.inr ⟨fun i h => absurd h (Nat.not_lt_zero i), rfl⟩
  | succ f ih =>
      intro start
      by_cases hp : p start = false
      · refine Or.inl ⟨0, Nat.succ_pos f, by simpa using hp,
          fun j hj => absurd hj (Nat.not_lt_zero j), ?_⟩
        simp [scanDown, hp]
      · have hpt : p start = true := by
          cases h : p start
          · exact absurd h hp
          · rfl
        have hstep : scanDown p start (f + 1) dflt = scanDown p (start + 1) f dflt := by
          simp [scanDown, hpt]
        rcases ih (start + 1) with ⟨i, hi, hfail, hall, heq⟩ | ⟨hall, heq⟩
        · refine Or.inl ⟨i + 1, by omega, ?_, ?_, ?_⟩
          · have : start + (i + 1) = start + 1 + i := by omega
            rw [this]; exact hfail
          · intro j hj
            cases j with
            | zero => simpa using hpt
            | succ k =>
                have : start + (k + 1) = start + 1 + k := by omega
                rw [this]; exact hall k (by omega)
          · rw [hstep, heq]; omega
        · refine Or.inr ⟨?_, by rw [hstep, heq]⟩
          intro i hi
          cases i with
          | zero => simpa using hpt
          | succ k =>
              have : start + (k + 1) = start + 1 + k := by omega
              rw [this]; exact hall k (by omega)

/-- `scanUp` returns one past the first index below `start` (within `fuel`
steps) where `p` fails, and the default when `p` holds on the whole
range. -/
theorem scanUp_spec (p : Nat → Bool) (dflt : Nat) :
    ∀ (fuel start : Nat),
      (∃ i, i < fuel ∧ p (start - i) = false ∧
        (∀ j, j < i → p (start - j) = true) ∧
        scanUp p start fuel dflt = (start - i) + 1) ∨
      ((∀ i, i < fuel → p (start - i) = true) ∧ scanUp p start fuel dflt = dflt) := by
  intro fuel
  induction fuel with
  | zero => exact fun start => Or.inr ⟨fun i h => absurd h (Nat.not_lt_zero i), rfl⟩
  | succ f ih =>
      intro start
      by_cases hp : p start = false
      · refine Or.inl ⟨0, Nat.succ_pos f, by simpa using hp,
          fun j hj => absurd hj (Nat.not_lt_zero j), ?_⟩
        simp [scanUp, hp]
      · have hpt : p start = true := by
          cases h : p start
          · exact absurd h hp
          · rfl
        have hstep : scanUp p start (f + 1) dflt = scanUp p (start - 1) f dflt := by
          simp [scanUp, hpt]
        rcases ih (start - 1) with ⟨i, hi, hfail, hall, heq⟩ | ⟨hall, heq⟩
        · refine Or.inl ⟨i + 1, by omega, ?_, ?_, ?_⟩
          · have : start - (i + 1) = start - 1 - i := by omega
            rw [this]; exact hfail
          · intro j hj
            cases j with
            | zero => simpa using hpt
            | succ k =>
                have : start - (k + 1) = start - 1 - k := by omega
                rw [this]; exact hall k (by omega)
          · rw [hstep, heq]; omega
        · refine Or.inr ⟨?_, by rw [hstep, heq]⟩
          intro i hi
          cases i with
          | zero => simpa using hpt
          | succ k =>
              have : start - (k + 1) = start - 1 - k := by omega
              rw [this]; exact hall k (by omega)

/-- Coarse bounds: `scanDown` yields the default or a value in
`[start, start + fuel)`. -/
theorem scanDown_bounds (p : Nat → Bool) (dflt fuel start : Nat) :
    scanDown p start fuel dflt = dflt ∨
      (start ≤ scanDown p start fuel dflt ∧ scanDown p start fuel dflt < start + fuel) := by
  rcases scanDown_spec p dflt fuel start with ⟨i, hi, _, _, heq⟩ | ⟨_, heq⟩
  · right; omega
  · left; exact heq

/-- Coarse bounds: `scanUp` yields the default or a value `v` with
`v ≤ start + 1` and `start + 2 ≤ v + fuel`. -/
theorem scanUp_bounds (p : Nat → Bool) (dflt fuel start : Nat) :
    scanUp p start fuel dflt = dflt ∨
      (scanUp p start fuel dflt ≤ start + 1 ∧
        start + 2 ≤ scanUp p start fuel dflt + fuel) := by
  rcases scanUp_spec p dflt fuel start with ⟨i, hi, _, _, heq⟩ | ⟨_, heq⟩
  · right; omega
  · left; exact heq

/-! ### Bounding-box scan lemmas -/

/-- A dark pixel sets `found`. -/
theorem bboxUpd_sets (img : GrayImage) (T : Nat) (s : BBox) (x y : Nat)
    (h : img.pix x y < T) : (bboxUpd img T s x y).found = true := by
  simp [bboxUpd, h]

/-- `found` is never unset. -/
theorem bboxUpd_mono (img : GrayImage) (T : Nat) (s : BBox) (x y : Nat)
    (h : s.found = true) : (bboxUpd img T s x y).found = true := by
  unfold bboxUpd
  split
  · rfl
  · exact h

/-- `found` is set by the bounding-box pass iff the image has a dark pixel. -/
theorem bboxScan_found_iff (img : GrayImage) (T : Nat) :
    (bboxScan img T).found = true ↔
      ∃ x y, x < img.width ∧ y < img.height ∧ img.pix x y < T := by
  constructor
  · intro h
    refine foldl_preserve
      (fun s : BBox => s.found = true → ∃ x y, x < img.width ∧ y < img.height ∧ img.pix x y < T)
      _ (List.range img.height) _ (fun hh => Bool.noConfusion hh) ?_ h
    intro s y hy hs
    refine foldl_preserve
      (fun s : BBox => s.found = true → ∃ x y, x < img.width ∧ y < img.height ∧ img.pix x y < T)
      _ (List.range img.width) _ hs ?_
    intro s x hx hs2
    unfold bboxUpd
    split
    · rename_i hd
      exact fun _ => ⟨x, y, List.mem_range.mp hx, List.mem_range.mp hy, hd⟩
    · exact hs2
  · rintro ⟨x, y, hx, hy, hd⟩
    refine foldl_reach (fun s : BBox => s.found = true) _ y (List.range img.height) _
      (List.mem_range.mpr hy) ?_ ?_
    · intro s
      refine foldl_reach (fun s : BBox => s.found = true) _ x (List.range img.width) _
        (List.mem_range.mpr hx) (fun s => bboxUpd_sets img T s x y hd)
        (fun s c => bboxUpd_mono img T s c y)
    · intro s c hs
      exact foldl_preserve (fun s : BBox => s.found = true) _ (List.range img.width) s hs
        (fun s b _ => bboxUpd_mono img T s b c)

/-- The bounding box lies inside the image and is nonempty once a dark
pixel was found. -/
theorem bboxScan_bounds (img : GrayImage) (T : Nat) :
    (bboxScan img T).bx1 ≤ img.width ∧ (bboxScan img T).by1 ≤ img.height ∧
      ((bboxScan img T).found = true →
        (bboxScan img T).bx0 < (bboxScan img T).bx1 ∧
        (bboxScan img T).by0 < (bboxScan img T).by1) := by
  refine foldl_preserve
    (fun s : BBox => s.bx1 ≤ img.width ∧ s.by1 ≤ img.height ∧
      (s.found = true → s.bx0 < s.bx1 ∧ s.by0 < s.by1))
    _ (List.range img.height) _ ⟨Nat.zero_le _, Nat.zero_le _, fun h => Bool.noConfusion h⟩ ?_
  intro s y hy hs
  refine foldl_preserve
    (fun s : BBox => s.bx1 ≤ img.width ∧ s.by1 ≤ img.height ∧
      (s.found = true → s.bx0 < s.bx1 ∧ s.by0 < s.by1))
    _ (List.range img.width) _ hs ?_
  intro s x hx hs2
  have hxw : x < img.width := List.mem_range.mp hx
  have hyh : y < img.height := List.mem_range.mp hy
  unfold bboxUpd
  split
  · refine ⟨?_, ?_, fun _ => ⟨?_, ?_⟩⟩ <;> simp <;> omega
  · exact hs2

/-- Tightness data carried along the bounding-box fold: before any dark
pixel was found the state is the initial one, and afterwards each of the
four box edges is attained by some dark pixel. -/
def TightState (img : GrayImage) (T : Nat) (s : BBox) : Prop :=
  (s.found = false →
    s.bx0 = img.width ∧ s.by0 = img.height ∧ s.bx1 = 0 ∧ s.by1 = 0) ∧
  (s.found = true →
    (∃ y, y < img.height ∧ img.pix s.bx0 y < T) ∧
    (∃ y, y < img.height ∧ img.pix (s.bx1 - 1) y < T) ∧
    (∃ x, x < img.width ∧ img.pix x s.by0 < T) ∧
    (∃ x, x < img.width ∧ img.pix x (s.by1 - 1) < T))

/-- One bounding-box step preserves the tightness data. -/
theorem bboxUpd_tight (img : GrayImage) (T : Nat) (s : BBox) (x y : Nat)
    (hx : x < img.width) (hy : y < img.height)
    (hs : TightState img T s) : TightState img T (bboxUpd img T s x y) := by
  unfold bboxUpd
  split
  · rename_i hd
    constructor
    · intro h; exact Bool.noConfusion h
    · intro _
      dsimp only
      cases hfd : s.found
      · obtain ⟨hinit, _⟩ := hs
        obtain ⟨h0, h1, h2, h3⟩ := hinit hfd
        rw [h0, h1, h2, h3]
        rw [Nat.min_eq_right hx.le, Nat.min_eq_right hy.le,
          Nat.max_eq_right (Nat.zero_le _), Nat.max_eq_right (Nat.zero_le _)]
        exact ⟨⟨y, hy, hd⟩, ⟨y, hy, by simpa using hd⟩,
          ⟨x, hx, hd⟩, ⟨x, hx, by simpa using hd⟩⟩
      · obtain ⟨_, hat⟩ := hs
        obtain ⟨⟨y0, hy0, hd0⟩, ⟨y1, hy1, hd1⟩, ⟨x0, hx0, hd2⟩, ⟨x1, hx1, hd3⟩⟩ :=
          hat hfd
        refine ⟨?_, ?_, ?_, ?_⟩
        · rcases Nat.le_total s.bx0 x with h | h
          · rw [Nat.min_eq_left h]; exact ⟨y0, hy0, hd0⟩
          · rw [Nat.min_eq_right h]; exact ⟨y, hy, hd⟩
        · rcases Nat.le_total s.bx1 (x + 1) with h | h
          · rw [Nat.max_eq_right h]; exact ⟨y, hy, by simpa using hd⟩
          · rw [Nat.max_eq_left h]; exact ⟨y1, hy1, hd1⟩
        · rcases Nat.le_total s.by0 y with h | h
          · rw [Nat.min_eq_left h]; exact ⟨x0, hx0, hd2⟩
          · rw [Nat.min_eq_right h]; exact ⟨x, hx, hd⟩
        · rcases Nat.le_total s.by1 (y + 1) with h | h
          · rw [Nat.max_eq_right h]; exact ⟨x, hx, by simpa using hd⟩
          · rw [Nat.max_eq_left h]; exact ⟨x1, hx1, hd3⟩
  · exact hs

/-- The computed box is the tight dark-pixel bounding box: every dark
pixel lies inside it, and (once `found`) each of its four edges passes
through a dark pixel. -/
theorem bboxScan_tight (img : GrayImage) (T : Nat) :
    TightState img T (bboxScan img T) ∧
    (∀ x y, x < img.width → y < img.height → img.pix x y < T →
      (bboxScan img T).bx0 ≤ x ∧ x < (bboxScan img T).bx1 ∧
      (bboxScan img T).by0 ≤ y ∧ y < (bboxScan img T).by1) := by
  constructor
  · refine foldl_preserve (TightState img T) _ (List.range img.height) _
      ⟨fun _ => ⟨rfl, rfl, rfl, rfl⟩, fun h => Bool.noConfusion h⟩ ?_
    intro s y hy hs
    refine foldl_preserve (TightState img T) _ (List.range img.width) _ hs ?_
    intro s x hx hs2
    exact bboxUpd_tight img T s x y (List.mem_range.mp hx) (List.mem_range.mp hy) hs2
  · intro x y hx hy hd
    have hmono : ∀ (s : BBox) (c r : Nat),
        (s.bx0 ≤ x ∧ x < s.bx1 ∧ s.by0 ≤ y ∧ y < s.by1) →
        ((bboxUpd img T s c r).bx0 ≤ x ∧ x < (bboxUpd img T s c r).bx1 ∧
          (bboxUpd img T s c r).by0 ≤ y ∧ y < (bboxUpd img T s c r).by1) := by
      intro s c r hq
      unfold bboxUpd
      split
      · dsimp only; omega
      · exact hq
    refine foldl_reach
      (fun s : BBox => s.bx0 ≤ x ∧ x < s.bx1 ∧ s.by0 ≤ y ∧ y < s.by1)
      _ y (List.range img.height) _ (List.mem_range.mpr hy) ?_ ?_
    · intro s
      refine foldl_reach
        (fun s : BBox => s.bx0 ≤ x ∧ x < s.bx1 ∧ s.by0 ≤ y ∧ y < s.by1)
        _ x (List.range img.width) _ (List.mem_range.mpr hx) ?_ ?_
      · intro s
        unfold bboxUpd
        rw [if_pos hd]
        dsimp only
        omega
      · intro s c hq
        exact hmono s c y hq
    · intro s r hq
      exact foldl_preserve
        (fun s : BBox => s.bx0 ≤ x ∧ x < s.bx1 ∧ s.by0 ≤ y ∧ y < s.by1)
        _ (List.range img.width) s hq (fun s b _ hb => hmono s b r hb)

/-! ### Inner-edge bounds -/

/-- Once a dark pixel was found, the four inner edges stay inside the
bounding box and leave a nonempty inner rectangle: each inward scan covers
at most half of the box dimension, so opposite scans cannot cross. -/
theorem inner_edges_bounds (img : GrayImage) (T : Nat)
    (hf : (bboxScan img T).found = true) :
    (bboxScan img T).bx0 ≤ innerLeft img T ∧
    innerLeft img T < innerRight img T ∧
    innerRight img T ≤ (bboxScan img T).bx1 ∧
    (bboxScan img T).by0 ≤ innerTop img T ∧
    innerTop img T < innerBottom img T ∧
    innerBottom img T ≤ (bboxScan img T).by1 := by
  obtain ⟨hx1, hy1, hne⟩ := bboxScan_bounds img T
  obtain ⟨hbx, hby⟩ := hne hf
  have hL : innerLeft img T =
      scanDown (fun x => colIsBorder img T x (bboxScan img T).by0 (bboxScan img T).by1)
        (bboxScan img T).bx0
        (min (((bboxScan img T).bx1 - (bboxScan img T).bx0) / 2) 100)
        (bboxScan img T).bx0 := rfl
  have hR : innerRight img T =
      scanUp (fun x => colIsBorder img T x (bboxScan img T).by0 (bboxScan img T).by1)
        ((bboxScan img T).bx1 - 1)
        (min (((bboxScan img T).bx1 - (bboxScan img T).bx0) / 2) 100 - 1)
        (bboxScan img T).bx1 := rfl
  have hT : innerTop img T =
      scanDown (fun y => rowIsBorder img T y (bboxScan img T).bx0 (bboxScan img T).bx1)
        (bboxScan img T).by0
        (min (((bboxScan img T).by1 - (bboxScan img T).by0) / 2) 100)
        (bboxScan img T).by0 := rfl
  have hB : innerBottom img T =
      scanUp (fun y => rowIsBorder img T y (bboxScan img T).bx0 (bboxScan img T).bx1)
        ((bboxScan img T).by1 - 1)
        (min (((bboxScan img T).by1 - (bboxScan img T).by0) / 2) 100 - 1)
        (bboxScan img T).by1 := rfl
  have dL := scanDown_bounds
    (fun x => colIsBorder img T x (bboxScan img T).by0 (bboxScan img T).by1)
    (bboxScan img T).bx0
    (min (((bboxScan img T).bx1 - (bboxScan img T).bx0) / 2) 100)
    (bboxScan img T).bx0
  have dR := scanUp_bounds
    (fun x => colIsBorder img T x (bboxScan img T).by0 (bboxScan img T).by1)
    (bboxScan img T).bx1
    (min (((bboxScan img T).bx1 - (bboxScan img T).bx0) / 2) 100 - 1)
    ((bboxScan img T).bx1 - 1)
  have dT := scanDown_bounds
    (fun y => rowIsBorder img T y (bboxScan img T).bx0 (bboxScan img T).bx1)
    (bboxScan img T).by0
    (min (((bboxScan img T).by1 - (bboxScan img T).by0) / 2) 100)
    (bboxScan img T).by0
  have dB := scanUp_bounds
    (fun y => rowIsBorder img T y (bboxScan img T).bx0 (bboxScan img T).bx1)
    (bboxScan img T).by1
    (min (((bboxScan img T).by1 - (bboxScan img T).by0) / 2) 100 - 1)
    ((bboxScan img T).by1 - 1)
  rw [← hL] at dL
  rw [← hR] at dR
  rw [← hT] at dT
  rw [← hB] at dB
  omega

/-- Inversion of a successful `detectCrop`: the dark-pixel pass found a
box, the box passed the area test, and the rectangle is the padded inner
rectangle. -/
theorem detectCrop_some_inv (img : GrayImage) (T : Nat) (r : Rect)
    (h : detectCrop img T = some r) :
    (bboxScan img T).found = true ∧
    ¬ ((bboxScan img T).bx1 - (bboxScan img T).bx0) *
        ((bboxScan img T).by1 - (bboxScan img T).by0) * 20 <
        img.width * img.height ∧
    r = { left := innerLeft img T - 8
          top := innerTop img T - 8
          right := min (innerRight img T + 8) img.width
          bottom := min (innerBottom img T + 8) img.height } := by
  simp only [detectCrop] at h
  split at h
  · exact absurd h (by simp)
  · split at h
    · exact absurd h (by simp)
    · rename_i h1 h2
      refine ⟨?_, h2, (Option.some.inj h).symm⟩
      cases hfd : (bboxScan img T).found
      · exact absurd hfd h1
      · rfl

/-- `detectCrop` declines to crop exactly when no box was found or the box
fails the area test. -/
theorem detectCrop_eq_none_iff (img : GrayImage) (T : Nat) :
    detectCrop img T = none ↔
      ((bboxScan img T).found = false ∨
        ((bboxScan img T).bx1 - (bboxScan img T).bx0) *
          ((bboxScan img T).by1 - (bboxScan img T).by0) * 20 <
          img.width * img.height) := by
  simp only [detectCrop]
  split
  · rename_i h1
    simp [h1]
  · split
    · rename_i h1 h2
      simp [h2]
    · rename_i h1 h2
      simp [h1, h2]

/-! ### Claim theorems -/

/-- C2: `detectCrop` (`autoCropLabel`) returns `NoCropNeeded` — the
original buffer passed through unchanged — if and only if either no pixel
has luminance below the dark threshold 80, or the dark-pixel bounding box
has area less than `0.05` times the total image area; on every other input
it returns a crop of the input. -/
theorem c2_nocrop_iff (img : GrayImage) :
    (detectCrop img 80 = none ↔
      ((∀ x y, x < img.width → y < img.height → ¬ img.pix x y < 80) ∨
        ((bboxScan img 80).bx1 - (bboxScan img 80).bx0) *
          ((bboxScan img 80).by1 - (bboxScan img 80).by0) * 20 <
          img.width * img.height)) ∧
    (detectCrop img 80 = none → autoCropLabel img 80 = img) ∧
    (∀ r, detectCrop img 80 = some r → autoCropLabel img 80 = cropImage img r) := by
  have hnd : (bboxScan img 80).found = false ↔
      (∀ x y, x < img.width → y < img.height → ¬ img.pix x y < 80) := by
    constructor
    · intro h x y hx hy hd
      have : (bboxScan img 80).found = true :=
        (bboxScan_found_iff img 80).mpr ⟨x, y, hx, hy, hd⟩
      rw [h] at this
      exact Bool.noConfusion this
    · intro h
      cases hfd : (bboxScan img 80).found
      · rfl
      · obtain ⟨x, y, hx, hy, hd⟩ := (bboxScan_found_iff img 80).mp hfd
        exact absurd hd (h x y hx hy)
  refine ⟨?_, ?_, ?_⟩
  · rw [detectCrop_eq_none_iff, hnd]
  · intro h
    simp [autoCropLabel, h]
  · intro r h
    simp [autoCropLabel, h]

/-- C4: whenever `detectCrop` detects a crop, the returned rectangle is
the inner rectangle expanded by exactly 8 pixels per side, with left/top
clamped at 0 and right/bottom clamped at the image width/height; hence it
contains the inner rectangle and stays within the image bounds. -/
theorem c4_crop_padding (img : GrayImage) (r : Rect)
    (h : detectCrop img 80 = some r) :
    r.left = innerLeft img 80 - 8 ∧
    r.top = innerTop img 80 - 8 ∧
    r.right = min (innerRight img 80 + 8) img.width ∧
    r.bottom = min (innerBottom img 80 + 8) img.height ∧
    r.left ≤ innerLeft img 80 ∧
    r.top ≤ innerTop img 80 ∧
    innerRight img 80 ≤ r.right ∧
    innerBottom img 80 ≤ r.bottom ∧
    r.right ≤ img.width ∧
    r.bottom ≤ img.height := by
  obtain ⟨hf, _, hr⟩ := detectCrop_some_inv img 80 r h
  obtain ⟨hx1, hy1, _⟩ := bboxScan_bounds img 80
  obtain ⟨_, _, hRb, _, _, hBb⟩ := inner_edges_bounds img 80 hf
  subst hr
  refine ⟨rfl, rfl, rfl, rfl, ?_, ?_, ?_, ?_, ?_, ?_⟩ <;> simp <;> omega

/-- C8: `detectCrop` (`autoCropLabel`) never fails: on every grayscale
buffer it either leaves the input unchanged (`NoCropNeeded`) or returns a
crop of the input by a well-formed rectangle (nonempty, inside the image
bounds — exactly the preconditions of the `extract` call, so the crop
itself cannot fail either). -/
theorem c8_never_fails (img : GrayImage) :
    (detectCrop img 80 = none ∧ autoCropLabel img 80 = img) ∨
    (∃ r, detectCrop img 80 = some r ∧
      r.left < r.right ∧ r.right ≤ img.width ∧
      r.top < r.bottom ∧ r.bottom ≤ img.height ∧
      autoCropLabel img 80 = cropImage img r) := by
  cases hd : detectCrop img 80 with
  | none => exact Or.inl ⟨rfl, by simp [autoCropLabel, hd]⟩
  | some r =>
      obtain ⟨hf, _, hr⟩ := detectCrop_some_inv img 80 r hd
      obtain ⟨hx1, hy1, _⟩ := bboxScan_bounds img 80
      obtain ⟨_, hLR, hRb, _, hTB, hBb⟩ := inner_edges_bounds img 80 hf
      refine Or.inr ⟨r, rfl, ?_, ?_, ?_, ?_, by simp [autoCropLabel, hd]⟩ <;>
        subst hr <;> simp <;> omega

/-- C4 witness: on the 4×4 bordered test image a crop is detected, and the
padded rectangle relations hold there. -/
theorem c4_witness :
    detectCrop ex4 80 = some ⟨0, 0, 4, 4⟩ ∧
    ((⟨0, 0, 4, 4⟩ : Rect).left = innerLeft ex4 80 - 8 ∧
     (⟨0, 0, 4, 4⟩ : Rect).top = innerTop ex4 80 - 8 ∧
     (⟨0, 0, 4, 4⟩ : Rect).right = min (innerRight ex4 80 + 8) ex4.width ∧
     (⟨0, 0, 4, 4⟩ : Rect).bottom = min (innerBottom ex4 80 + 8) ex4.height ∧
     (⟨0, 0, 4, 4⟩ : Rect).left ≤ innerLeft ex4 80 ∧
     (⟨0, 0, 4, 4⟩ : Rect).top ≤ innerTop ex4 80 ∧
     innerRight ex4 80 ≤ (⟨0, 0, 4, 4⟩ : Rect).right ∧
     innerBottom ex4 80 ≤ (⟨0, 0, 4, 4⟩ : Rect).bottom ∧
     (⟨0, 0, 4, 4⟩ : Rect).right ≤ ex4.width ∧
     (⟨0, 0, 4, 4⟩ : Rect).bottom ≤ ex4.height) :=
  ⟨by decide, c4_crop_padding ex4 ⟨0, 0, 4, 4⟩ (by decide)⟩

/-- C1 (amended): on every buffer whose dark-pixel bounding box passes the
minimum-area test, the top and left scans of `detectCrop` examine up to
`min(⌊boxDim/2⌋, 100)` rows/columns and record the inner edge at the first
one that is not a border line (staying at the box boundary when all are
border lines) — but the bottom and right scans examine only up to
`min(⌊boxDim/2⌋, 100) - 1` rows/columns, one fewer than the top and left
scans. -/
theorem c1_scan_characterization (img : GrayImage)
    (_hf : (bboxScan img 80).found = true)
    (_hA : ¬ ((bboxScan img 80).bx1 - (bboxScan img 80).bx0) *
        ((bboxScan img 80).by1 - (bboxScan img 80).by0) * 20 <
        img.width * img.height) :
    topEdgeSpec img 80 (min (((bboxScan img 80).by1 - (bboxScan img 80).by0) / 2) 100) ∧
    bottomEdgeSpec img 80
      (min (((bboxScan img 80).by1 - (bboxScan img 80).by0) / 2) 100 - 1) ∧
    leftEdgeSpec img 80 (min (((bboxScan img 80).bx1 - (bboxScan img 80).bx0) / 2) 100) ∧
    rightEdgeSpec img 80
      (min (((bboxScan img 80).bx1 - (bboxScan img 80).bx0) / 2) 100 - 1) := by
  refine ⟨?_, ?_, ?_, ?_⟩
  · exact scanDown_spec
      (fun y => rowIsBorder img 80 y (bboxScan img 80).bx0 (bboxScan img 80).bx1)
      (bboxScan img 80).by0
      (min (((bboxScan img 80).by1 - (bboxScan img 80).by0) / 2) 100)
      (bboxScan img 80).by0
  · exact scanUp_spec
      (fun y => rowIsBorder img 80 y (bboxScan img 80).bx0 (bboxScan img 80).bx1)
      (bboxScan img 80).by1
      (min (((bboxScan img 80).by1 - (bboxScan img 80).by0) / 2) 100 - 1)
      ((bboxScan img 80).by1 - 1)
  · exact scanDown_spec
      (fun x => colIsBorder img 80 x (bboxScan img 80).by0 (bboxScan img 80).by1)
      (bboxScan img 80).bx0
      (min (((bboxScan img 80).bx1 - (bboxScan img 80).bx0) / 2) 100)
      (bboxScan img 80).bx0
  · exact scanUp_spec
      (fun x => colIsBorder img 80 x (bboxScan img 80).by0 (bboxScan img 80).by1)
      (bboxScan img 80).bx1
      (min (((bboxScan img 80).bx1 - (bboxScan img 80).bx0) / 2) 100 - 1)
      ((bboxScan img 80).bx1 - 1)

/-- C1 counterexample: the claim says all four scans run for up to
`min(⌊boxDim/2⌋, 100)` steps.  On `ex4` that bound is 2, and the bottom
scan, had it really examined 2 rows, would have found the non-border row
`y = 2` and recorded the inner bottom edge 3; the code's bottom scan
examines only row 3 and leaves the edge at the box boundary 4.  So the
claimed characterization of the bottom edge is false at `ex4`. -/
theorem c1_counterexample :
    (bboxScan ex4 80).found = true ∧
    ¬ ((bboxScan ex4 80).bx1 - (bboxScan ex4 80).bx0) *
        ((bboxScan ex4 80).by1 - (bboxScan ex4 80).by0) * 20 <
        ex4.width * ex4.height ∧
    min (((bboxScan ex4 80).by1 - (bboxScan ex4 80).by0) / 2) 100 = 2 ∧
    ¬ bottomEdgeSpec ex4 80 2 := by
  refine ⟨by decide, by decide, by decide, ?_⟩
  intro h
  have hbox : bboxScan ex4 80 = ⟨true, 0, 0, 4, 4⟩ := by decide
  have hib : innerBottom ex4 80 = 4 := by decide
  simp only [bottomEdgeSpec, hbox, hib] at h
  rcases h with ⟨i, hi, hfail, _, heq⟩ | ⟨hall, _⟩
  · have hi0 : i = 0 := by omega
    subst hi0
    exact absurd hfail (by decide)
  · have h1 := hall 1 (by omega)
    exact absurd h1 (by decide)

/-- C1 witness: the 4×4 bordered image satisfies both hypotheses of the
amended characterization. -/
theorem c1_witness :
    (bboxScan ex4 80).found = true ∧
    (¬ ((bboxScan ex4 80).bx1 - (bboxScan ex4 80).bx0) *
        ((bboxScan ex4 80).by1 - (bboxScan ex4 80).by0) * 20 <
        ex4.width * ex4.height) ∧
    (topEdgeSpec ex4 80 (min (((bboxScan ex4 80).by1 - (bboxScan ex4 80).by0) / 2) 100) ∧
     bottomEdgeSpec ex4 80
       (min (((bboxScan ex4 80).by1 - (bboxScan ex4 80).by0) / 2) 100 - 1) ∧
     leftEdgeSpec ex4 80 (min (((bboxScan ex4 80).bx1 - (bboxScan ex4 80).bx0) / 2) 100) ∧
     rightEdgeSpec ex4 80
       (min (((bboxScan ex4 80).bx1 - (bboxScan ex4 80).bx0) / 2) 100 - 1)) :=
  ⟨by decide, by decide, c1_scan_characterization ex4 (by decide) (by decide)⟩

/-- The output buffer of the resize model has exactly the requested width. -/
theorem sharpResize_width (img : GrayImage) (w h : Nat) (m : FitMode) :
    (sharpResize img w h m).width = w := rfl

/-- The output buffer of the resize model has exactly the requested height. -/
theorem sharpResize_height (img : GrayImage) (w h : Nat) (m : FitMode) :
    (sharpResize img w h m).height = h := rfl

/-- C3 (amended): for every target size and dpi whose rounded pixel
dimensions are both at least 1 — in particular every catalog size at any
practical dpi — and each of the three fit modes, `resizeImage` returns a
buffer of exactly `round(widthIn*dpi) × round(heightIn*dpi)` pixels.
(When a rounded dimension is 0 or negative the resize engine rejects the
dimensions instead of returning a buffer; see the counterexample.) -/
theorem c3_output_dims (img : GrayImage) (sz : ℚ × ℚ) (dpi : ℚ) (m : FitMode)
    (hw : 1 ≤ round (sz.1 * dpi)) (hh : 1 ≤ round (sz.2 * dpi)) :
    ∃ out, resizeImage img sz dpi m = some out ∧
      (out.width : ℤ) = round (sz.1 * dpi) ∧
      (out.height : ℤ) = round (sz.2 * dpi) := by
  refine ⟨sharpResize img (round (sz.1 * dpi)).toNat (round (sz.2 * dpi)).toNat m,
    ?_, ?_, ?_⟩
  · simp only [resizeImage]
    rw [if_neg]
    push_neg
    omega
  · rw [sharpResize_width]
    exact Int.toNat_of_nonneg (by omega)
  · rw [sharpResize_height]
    exact Int.toNat_of_nonneg (by omega)

/-- C3 counterexample: the claim quantifies over every positive target
size and *every* dpi.  The valid size `0.1in × 6in` at dpi 1 rounds to a
0-pixel width, on which the resize fails instead of returning a
`0 × 6`-pixel buffer. -/
theorem c3_counterexample :
    (0 : ℚ) < 1 / 10 ∧ (0 : ℚ) < 6 ∧
    resizeImage ex4 (1 / 10, 6) 1 FitMode.fit = none := by
  refine ⟨by norm_num, by norm_num, ?_⟩
  have h : round ((1 / 10 : ℚ) * 1) ≤ 0 := by norm_num [round_eq]
  simp only [resizeImage]
  rw [if_pos (Or.inl h)]

/-- C3 witness: the default 4×6 label at dpi 300 resizes to a buffer of
exactly `round(4·300) × round(6·300)` pixels. -/
theorem c3_witness :
    1 ≤ round ((4 : ℚ) * 300) ∧ 1 ≤ round ((6 : ℚ) * 300) ∧
    (∃ out, resizeImage ex4 (4, 6) 300 FitMode.fit = some out ∧
      (out.width : ℤ) = round ((4 : ℚ) * 300) ∧
      (out.height : ℤ) = round ((6 : ℚ) * 300)) :=
  ⟨by norm_num [round_eq], by norm_num [round_eq],
    c3_output_dims ex4 (4, 6) 300 FitMode.fit (by norm_num [round_eq])
      (by norm_num [round_eq])⟩

/-- C6: a non-positive target dimension (at any positive dpi) always makes
`resizeImage` fail — the rounded pixel target is non-positive and the
resize engine rejects it (the invalid-dimensions failure of the spec's
taxonomy). -/
theorem c6_invalid_dimensions (img : GrayImage) (sz : ℚ × ℚ) (dpi : ℚ)
    (m : FitMode) (hdpi : 0 < dpi) (hsz : sz.1 ≤ 0 ∨ sz.2 ≤ 0) :
    resizeImage img sz dpi m = none := by
  have key : ∀ q : ℚ, q ≤ 0 → round (q * dpi) ≤ 0 := by
    intro q hq
    have hqd : q * dpi ≤ 0 := mul_nonpos_iff.mpr (Or.inr ⟨hq, hdpi.le⟩)
    rw [round_eq]
    have h2 : q * dpi + 1 / 2 ≤ 1 / 2 := by linarith
    calc ⌊q * dpi + 1 / 2⌋ ≤ ⌊(1 / 2 : ℚ)⌋ := Int.floor_mono h2
    _ = 0 := by norm_num
  have hcond : round (sz.1 * dpi) ≤ 0 ∨ round (sz.2 * dpi) ≤ 0 := by
    rcases hsz with h | h
    · exact Or.inl (key _ h)
    · exact Or.inr (key _ h)
  simp only [resizeImage]
  rw [if_pos hcond]

/-- C6 witness: a −4in × 6in target at dpi 300 fails. -/
theorem c6_witness :
    (0 : ℚ) < 300 ∧ ((-4 : ℚ) ≤ 0 ∨ (6 : ℚ) ≤ 0) ∧
    resizeImage ex4 (-4, 6) 300 FitMode.fit = none :=
  ⟨by norm_num, Or.inl (by norm_num),
    c6_invalid_dimensions ex4 (-4, 6) 300 FitMode.fit (by norm_num)
      (Or.inl (by norm_num))⟩

/-- C5: `buildPdf2Up` centers label 1 in the left half of the fixed
792×612pt landscape page and label 2 in the right half, each vertically
centered (`2·x + labelW = halfW` says the margins on both sides of the
label within its half are equal), and for two labels the x-offsets are
mirrored about the page's vertical center line:
`xRight - halfW = halfW - (xLeft + labelW)`. -/
theorem c5_two_up_layout (a b : GrayImage) (sz : ℚ × ℚ) :
    (∃ p : Placement, (buildPdf2Up [a] sz).placements = [p] ∧ p.img = a ∧
      2 * p.x + sz.1 * 72 = 396 ∧ 2 * p.y + sz.2 * 72 = 612) ∧
    (∃ p q : Placement, (buildPdf2Up [a, b] sz).placements = [p, q] ∧
      p.img = a ∧ q.img = b ∧
      2 * p.x + sz.1 * 72 = 396 ∧
      2 * (q.x - 396) + sz.1 * 72 = 396 ∧
      2 * p.y + sz.2 * 72 = 612 ∧ q.y = p.y ∧
      q.x - 396 = 396 - (p.x + sz.1 * 72)) := by
  constructor
  · refine ⟨⟨a, (PAGE_WIDTH_IN * PTS_PER_INCH / 2 - sz.1 * PTS_PER_INCH) / 2,
      (PAGE_HEIGHT_IN * PTS_PER_INCH - sz.2 * PTS_PER_INCH) / 2,
      sz.1 * PTS_PER_INCH, sz.2 * PTS_PER_INCH⟩, rfl, rfl, ?_, ?_⟩
    · simp only [PAGE_WIDTH_IN, PTS_PER_INCH]
      ring
    · simp only [PAGE_HEIGHT_IN, PTS_PER_INCH]
      ring
  · refine ⟨⟨a, (PAGE_WIDTH_IN * PTS_PER_INCH / 2 - sz.1 * PTS_PER_INCH) / 2,
      (PAGE_HEIGHT_IN * PTS_PER_INCH - sz.2 * PTS_PER_INCH) / 2,
      sz.1 * PTS_PER_INCH, sz.2 * PTS_PER_INCH⟩,
      ⟨b, PAGE_WIDTH_IN * PTS_PER_INCH / 2 +
        (PAGE_WIDTH_IN * PTS_PER_INCH / 2 - sz.1 * PTS_PER_INCH) / 2,
      (PAGE_HEIGHT_IN * PTS_PER_INCH - sz.2 * PTS_PER_INCH) / 2,
      sz.1 * PTS_PER_INCH, sz.2 * PTS_PER_INCH⟩, rfl, rfl, rfl, ?_, ?_, ?_, rfl, ?_⟩
    · simp only [PAGE_WIDTH_IN, PTS_PER_INCH]
      ring
    · simp only [PAGE_WIDTH_IN, PTS_PER_INCH]
      ring
    · simp only [PAGE_HEIGHT_IN, PTS_PER_INCH]
      ring
    · simp only [PAGE_WIDTH_IN, PTS_PER_INCH]
      ring

/-- C10: `buildPdf2Up` embeds at most the first two label buffers —
composing any list gives the same document as composing its first two
elements, and the page carries `min(len, 2)` images — and the empty list
still yields the fixed single landscape page with no embedded images. -/
theorem c10_at_most_two (images : List GrayImage) (sz : ℚ × ℚ) :
    buildPdf2Up images sz = buildPdf2Up (images.take 2) sz ∧
    (buildPdf2Up images sz).placements.length = min images.length 2 ∧
    (buildPdf2Up ([] : List GrayImage) sz).placements = [] ∧
    (buildPdf2Up ([] : List GrayImage) sz).pageW = 792 ∧
    (buildPdf2Up ([] : List GrayImage) sz).pageH = 612 := by
  refine ⟨?_, ?_, ?_, ?_, ?_⟩
  · simp [buildPdf2Up, List.take_take]
  · simp [buildPdf2Up, Nat.min_comm]
  · simp [buildPdf2Up]
  · simp [buildPdf2Up, PAGE_WIDTH_IN, PTS_PER_INCH]
    norm_num
  · simp [buildPdf2Up, PAGE_HEIGHT_IN, PTS_PER_INCH]
    norm_num

/-- C7 (amended): every extension outside the supported set is rejected
with an error naming that extension and listing the full supported set —
in JS string-sort order, which puts `.jpeg` before `.jpg` (the claim's
order `.jpg, .jpeg` is not the sorted order the code produces). -/
theorem c7_unsupported_format (ext : String) (h : ext ∉ SUPPORTED_EXTS) :
    loadImage ext = .error ("Unsupported file format \x27" ++ ext ++
      "\x27. Supported: " ++ ".bmp, .jpeg, .jpg, .pdf, .png, .tif, .tiff, .webp") := by
  have h1 : ext ∉ SUPPORTED_IMAGE_EXTS := fun hm =>
    h (List.mem_append.mpr (Or.inl hm))
  have h2 : ext ∉ SUPPORTED_PDF_EXTS := fun hm =>
    h (List.mem_append.mpr (Or.inr hm))
  have hs : supportedListText = ".bmp, .jpeg, .jpg, .pdf, .png, .tif, .tiff, .webp" := by
    decide
  simp [loadImage, h1, h2, unsupportedMsg, hs]

/-- C7 counterexample: at the unsupported extension `.gif` the code's
error message lists `.jpeg` before `.jpg` (JS lexicographic sort), not the
claim's `.jpg, .jpeg` order — the two messages differ. -/
theorem c7_counterexample :
    loadImage ".gif" = .error
      "Unsupported file format \x27.gif\x27. Supported: .bmp, .jpeg, .jpg, .pdf, .png, .tif, .tiff, .webp" ∧
    ("Unsupported file format \x27.gif\x27. Supported: .bmp, .jpeg, .jpg, .pdf, .png, .tif, .tiff, .webp" ≠
      "Unsupported file format \x27.gif\x27. Supported: .bmp, .jpg, .jpeg, .pdf, .png, .tif, .tiff, .webp") := by
  constructor
  · have h1 : (".gif" : String) ∉ SUPPORTED_IMAGE_EXTS := by decide
    have h2 : (".gif" : String) ∉ SUPPORTED_PDF_EXTS := by decide
    have hs : supportedListText = ".bmp, .jpeg, .jpg, .pdf, .png, .tif, .tiff, .webp" := by
      decide
    simp [loadImage, h1, h2, unsupportedMsg, hs]
  · decide

/-- C7 witness: `.gif` is outside the supported set and gets the amended
message. -/
theorem c7_witness :
    (".gif" : String) ∉ SUPPORTED_EXTS ∧
    loadImage ".gif" = .error ("Unsupported file format \x27" ++ ".gif" ++
      "\x27. Supported: " ++ ".bmp, .jpeg, .jpg, .pdf, .png, .tif, .tiff, .webp") :=
  ⟨by decide, c7_unsupported_format ".gif" (by decide)⟩

/-- C9 (amended): a label-size key outside the catalog
`{4x6, 4x8, 2x7, letter}` that is not the name of an inherited
`Object.prototype` member makes the entry points silently fall back to the
default 4×6 (the whole pipeline behaves exactly as with the default key);
a key naming an inherited prototype member (`toString`, `constructor`,
`valueOf`, ...) escapes the `??` fallback and makes the entry points fail
on the resulting NaN pixel dimensions.  In neither case can an arbitrary
custom `(widthIn, heightIn)` size be selected: every size the pipeline
ever resizes to is one of the four catalog sizes. -/
theorem c9_label_size_fallback (k : String) :
    (k ∉ ["4x6", "4x8", "2x7", "letter"] → k ∉ OBJECT_PROTO_KEYS →
      selectedLabelSize k = .arr (4, 6) ∧
      ∀ (l1 : GrayImage) (l2 : Option GrayImage) (dpi : ℚ) (m : FitMode) (ac : Bool),
        resizeLabelFromBuffers l1 l2 dpi m ac k =
          resizeLabelFromBuffers l1 l2 dpi m ac "4x6") ∧
    (k ∈ OBJECT_PROTO_KEYS →
      selectedLabelSize k = .protoMember ∧
      ∀ (l1 : GrayImage) (l2 : Option GrayImage) (dpi : ℚ) (m : FitMode) (ac : Bool),
        resizeLabelFromBuffers l1 l2 dpi m ac k = none) ∧
    (∀ v, selectedLabelSize k = .arr v →
      v ∈ [((4 : ℚ), (6 : ℚ)), (4, 8), (2, 7), (17 / 2, 11)]) := by
  have hdef : selectedLabelSize "4x6" = .arr (4, 6) := rfl
  refine ⟨?_, ?_, ?_⟩
  · intro hk hp
    have hsel : selectedLabelSize k = .arr (4, 6) := by
      unfold selectedLabelSize labelSizeEntry DEFAULT_LABEL_SIZE
      split_ifs with h1 h2 h3 h4 h5 <;> simp_all
    refine ⟨hsel, ?_⟩
    intro l1 l2 dpi m ac
    unfold resizeLabelFromBuffers
    rw [hsel, hdef]
  · intro hp
    have hsel : selectedLabelSize k = .protoMember := by
      unfold selectedLabelSize labelSizeEntry DEFAULT_LABEL_SIZE
      split_ifs with h1 h2 h3 h4 h5 <;> simp_all [OBJECT_PROTO_KEYS]
    refine ⟨hsel, ?_⟩
    intro l1 l2 dpi m ac
    unfold resizeLabelFromBuffers
    rw [hsel]
  · intro v hv
    unfold selectedLabelSize labelSizeEntry DEFAULT_LABEL_SIZE at hv
    split_ifs at hv <;> simp_all

/-- C9 counterexample: the original claim says every non-catalog key
makes the entry points silently fall back to 4×6 without failing.  The
non-catalog key `"toString"` reaches the inherited
`Object.prototype.toString`, the `??` fallback never triggers, and the
entry point fails — while the identical run with the default key
succeeds. -/
theorem c9_counterexample :
    ("toString" : String) ∉ ["4x6", "4x8", "2x7", "letter"] ∧
    selectedLabelSize "toString" = .protoMember ∧
    resizeLabelFromBuffers ex4 none 300 FitMode.fit true "toString" = none ∧
    resizeLabelFromBuffers ex4 none 300 FitMode.fit true "4x6" ≠ none := by
  refine ⟨by decide, rfl, rfl, ?_⟩
  have h4 : round ((4 : ℚ) * 300) = 1200 := by norm_num [round_eq]
  have h6 : round ((6 : ℚ) * 300) = 1800 := by norm_num [round_eq]
  have hr : resizeImage (autoCropLabel ex4 80) (4, 6) 300 FitMode.fit =
      some (sharpResize (autoCropLabel ex4 80) 1200 1800 FitMode.fit) := by
    simp [resizeImage, h4, h6]
  have hs : selectedLabelSize "4x6" = .arr (4, 6) := rfl
  unfold resizeLabelFromBuffers
  rw [hs]
  simp [hr]

/-- C9 witness: the out-of-catalog, non-prototype key `"5x9"` selects the
default 4×6 and the entry point behaves exactly as with the default key;
the prototype key `"toString"` makes the entry point fail. -/
theorem c9_witness :
    ("5x9" : String) ∉ ["4x6", "4x8", "2x7", "letter"] ∧
    ("5x9" : String) ∉ OBJECT_PROTO_KEYS ∧
    selectedLabelSize "5x9" = .arr (4, 6) ∧
    resizeLabelFromBuffers ex4 none 300 FitMode.fit true "5x9" =
      resizeLabelFromBuffers ex4 none 300 FitMode.fit true "4x6" ∧
    ("toString" : String) ∈ OBJECT_PROTO_KEYS ∧
    resizeLabelFromBuffers ex4 none 300 FitMode.fit true "toString" = none :=
  ⟨by decide, by decide,
    ((c9_label_size_fallback "5x9").1 (by decide) (by decide)).1,
    ((c9_label_size_fallback "5x9").1 (by decide) (by decide)).2 ex4 none 300
      FitMode.fit true,
    by decide,
    ((c9_label_size_fallback "toString").2.1 (by decide)).2 ex4 none 300
      FitMode.fit true⟩

end LabelCore
